import Mathlib

/-!
Verification of the reviews-api service (`src/reviews-api/app.py`).

The service is a small HTTP backend over a SQLite store.  We shallowly embed
the parts of the program that the specification makes claims about:

* the `review_codes` table and the `reviews` table of the store;
* the `/submit-review` handler (`submit_review`), whose core is an atomic
  "conditional update + insert" redemption transaction;
* the admin code-management handlers `api_admin_add_codes` and
  `api_admin_delete_code`;
* the secrets resolution helper `get_secret` and the login handler
  `api_admin_login`;
* the write-guard decorator `admin_write_required`.

Timestamps (SQLite `datetime('now')`) are modelled as natural numbers that are
passed in as a parameter.  A SQLite table is modelled as a list of rows; the
`review_codes` table is a list of `(code, row)` pairs (the `code` column is the
primary key, so in well-formed states the keys are pairwise distinct).  The
`reviews` table may be absent (`has_table` is false) and has a dynamic column
list, which `submit_review` introspects via `table_columns`; we model it as an
optional pair of the column-name list and the list of inserted rows, each row
being the association list of (column, value) pairs actually inserted.

Each SQLite transaction in the program runs under `BEGIN IMMEDIATE`, which
serialises writers at transaction start; a concurrent execution is therefore
modelled as a sequential composition of the atomic per-request transitions.
A `ROLLBACK` is modelled by returning the state the transaction started from.
-/

/-- A row of the `review_codes` table.  `created_at` and `used_at` carry the
model timestamps; `used_at = none` is SQL NULL (the code is unredeemed). -/
structure CodeRow where
  created_at : Nat
  used_at : Option Nat
  used_by_email : Option String
  used_by_name : Option String
deriving Repr, DecidableEq

/-- A SQLite value, as inserted into the `reviews` table. -/
inductive Val where
  | vstr (s : String)
  | vint (n : Int)
  | vnull
deriving Repr, DecidableEq

/-- The persistent store.  `review_codes` always exists (`ensure_schema`
creates it); the `reviews` table may be missing (`none`), and otherwise
carries its column list (in `PRAGMA table_info` order) and its rows. -/
structure DBState where
  review_codes : List (String × CodeRow)
  reviews_table : Option (List String × List (List (String × Val)))
deriving Repr, DecidableEq

/-- An HTTP JSON response, identified by its body shape and status code. -/
inductive Resp where
  | okTrue
  | okSubmitted (n : Nat)
  | okDeleted (n : Nat)
  | err (status : Nat) (tag : String)
deriving Repr, DecidableEq

/-- The HTTP status code of a response (`jsonify` without an explicit status
returns 200). -/
def Resp.statusCode : Resp → Nat
  | .okTrue => 200
  | .okSubmitted _ => 200
  | .okDeleted _ => 200
  | .err s _ => s

/-- `CODE_RE = re.compile(r"^\d{3}$")`, used via `CODE_RE.fullmatch(c)`:
exactly three decimal digits. -/
def CODE_RE_fullmatch (s : String) : Bool :=
  s.length = 3 && s.toList.all Char.isDigit

/-- The result of `int(rating)` on the raw `rating` field: `rint n` when the
conversion succeeds with value `n`, `rbad` when it raises. -/
inductive Rating where
  | rint (n : Int)
  | rbad
deriving Repr, DecidableEq

/-- Python `str.strip()` with no argument: remove leading and trailing
whitespace.  Implemented over the character list so that it evaluates by
kernel reduction on concrete strings. -/
def pyStrip (s : String) : String :=
  String.mk
    (((s.toList.dropWhile Char.isWhitespace).reverse.dropWhile
        Char.isWhitespace).reverse)

/-- Python `str.splitlines()` on newline-separated text: split at each
`'\n'`.  (The handlers strip the text first and strip and drop blank lines
afterwards, which also absorbs `'\r'` of CRLF endings.) -/
def splitLinesAux : List Char → List Char → List String
  | [], acc => [String.mk acc.reverse]
  | c :: cs, acc =>
      if c = '\n' then String.mk acc.reverse :: splitLinesAux cs []
      else splitLinesAux cs (c :: acc)

/-- `raw.splitlines()` for the add-codes handler. -/
def pySplitLines (s : String) : List String :=
  splitLinesAux s.toList []

/-- An inbound review request body.  String fields are `""` when absent
(the handler reads them with `or ""`); `rating` is `none` when the field is
missing (`data.get("rating")` returning `None`). -/
structure IncomingReview where
  name : String
  email : String
  rating : Option Rating
  message : String
  code : String
deriving Repr, DecidableEq

/-- `parse_incoming_review`: each string field is `.strip()`ped; the rating
is taken as-is. -/
def parse_incoming_review (r : IncomingReview) : IncomingReview :=
  { name := pyStrip r.name
    email := pyStrip r.email
    rating := r.rating
    message := pyStrip r.message
    code := pyStrip r.code }

/-- The input-validation prefix of `submit_review` (everything before
`conn = get_db()`): missing name/message/rating, malformed code, non-integer
rating, and out-of-range rating each short-circuit with a fixed response;
otherwise the parsed `rating_int` is produced. -/
def validate_review (q : IncomingReview) : Except Resp Int :=
  if q.name = "" || q.message = "" || q.rating.isNone then
    Except.error (Resp.err 400 "name, rating, and message are required")
  else if !CODE_RE_fullmatch q.code then
    Except.error (Resp.err 403 "invalid_code")
  else
    match q.rating with
    | some (Rating.rint n) =>
        if n < 1 || 5 < n then
          Except.error (Resp.err 400 "rating must be between 1 and 5")
        else Except.ok n
    | _ => Except.error (Resp.err 400 "rating must be an integer")

/-- The conditional `UPDATE review_codes SET used_at = datetime('now'),
used_by_email = ?, used_by_name = ? WHERE code = ? AND used_at IS NULL`:
returns the updated table together with `cur.rowcount`, the number of rows
the predicate matched. -/
def updateCodes (now1 : Nat) (email : Option String) (nm code : String) :
    List (String × CodeRow) → List (String × CodeRow) × Nat
  | [] => ([], 0)
  | (c, r) :: rest =>
    let out := updateCodes now1 email nm code rest
    if c = code ∧ r.used_at = none then
      ((c, { r with used_at := some now1
                    used_by_email := email
                    used_by_name := some nm }) :: out.1, out.2 + 1)
    else ((c, r) :: out.1, out.2)

/-- The dynamic `INSERT INTO reviews (...)` row built by `submit_review` from
`table_columns(conn, "reviews")`: only the supported columns present in the
table are inserted, in the fixed order name, email, rating, message,
created_at. -/
def build_insert_row (cols : List String) (nm : String) (email : Option String)
    (rating_int : Int) (message : String) (now1 : Nat) : List (String × Val) :=
  (if cols.contains "name" then [("name", Val.vstr nm)] else []) ++
  (if cols.contains "email" then
      [("email", match email with | some e => Val.vstr e | none => Val.vnull)]
    else []) ++
  (if cols.contains "rating" then [("rating", Val.vint rating_int)] else []) ++
  (if cols.contains "message" then [("message", Val.vstr message)] else []) ++
  (if cols.contains "created_at" then [("created_at", Val.vint now1)] else [])

/-- `email or None` as bound in the UPDATE and INSERT parameters: an empty
(falsy) email string becomes SQL NULL. -/
def emailOpt (q : IncomingReview) : Option String :=
  if q.email = "" then none else some q.email

/-- The redemption UPDATE of `submit_review`, applied to the store for a
parsed request `q`: updated `review_codes` table and `cur.rowcount`. -/
def redeemUpd (q : IncomingReview) (now1 : Nat) (db : DBState) :
    List (String × CodeRow) × Nat :=
  updateCodes now1 (emailOpt q) q.name q.code db.review_codes

/-- The `POST /submit-review` handler.  Validation first; then the
`has_table(conn, "reviews")` guard; then the `BEGIN IMMEDIATE` transaction:
conditional update, `rowcount != 1` check (rollback, `invalid_code`), dynamic
insert-row construction, empty-column rollback, and finally the insert and
commit.  A rollback returns the store unchanged. -/
def submit_review (raw : IncomingReview) (now1 : Nat) (db : DBState) :
    Resp × DBState :=
  let q := parse_incoming_review raw
  match validate_review q with
  | Except.error r => (r, db)
  | Except.ok rating_int =>
    match db.reviews_table with
    | none => (Resp.err 500 "missing_reviews_table", db)
    | some (cols, rows) =>
      let upd := redeemUpd q now1 db
      if upd.2 ≠ 1 then (Resp.err 403 "invalid_code", db)
      else
        let row := build_insert_row cols q.name (emailOpt q) rating_int
                     q.message now1
        if row = [] then
          (Resp.err 500 "reviews_table_has_no_supported_columns", db)
        else
          (Resp.okTrue,
           { review_codes := upd.1, reviews_table := some (cols, rows ++ [row]) })

/-- The newline-split, per-line-stripped, blank-dropped list of submitted
code lines (`raw.splitlines()` with `.strip()` and the truthiness filter). -/
def parse_code_lines (raw : String) : List String :=
  ((pySplitLines (pyStrip raw)).map pyStrip).filter (fun l => l ≠ "")

/-- The validation loop of `api_admin_add_codes`: the first line failing
`CODE_RE.fullmatch`, if any. -/
def firstBadCode : List String → Option String
  | [] => none
  | c :: rest => if !CODE_RE_fullmatch c then some c else firstBadCode rest

/-- A freshly inserted `review_codes` row: only the `code` column is given,
so `created_at` takes its default and the remaining columns are NULL. -/
def freshCodeRow (now1 : Nat) : CodeRow :=
  { created_at := now1, used_at := none,
    used_by_email := none, used_by_name := none }

/-- One step of `executemany("INSERT OR IGNORE INTO review_codes(code)
VALUES (?)")`: a code whose primary key already exists is ignored, otherwise a
fresh unredeemed row is appended (with the `created_at` default). -/
def insert_or_ignore (now1 : Nat) (codes : List (String × CodeRow))
    (c : String) : List (String × CodeRow) :=
  if (codes.map Prod.fst).contains c then codes
  else codes ++ [(c, freshCodeRow now1)]

/-- The `POST /api/admin/codes/add` handler body (after the auth decorator):
empty body is rejected, then every line is format-checked before any store
access, then all lines are inserted with `INSERT OR IGNORE` and the response
reports `submitted = len(cleaned)`. -/
def api_admin_add_codes (raw : String) (now1 : Nat) (db : DBState) :
    Resp × DBState :=
  if pyStrip raw = "" then (Resp.err 400 "no_codes", db)
  else
    match firstBadCode (parse_code_lines raw) with
    | some c => (Resp.err 400 ("invalid_code_format:" ++ c), db)
    | none =>
        let codes := (parse_code_lines raw).foldl (insert_or_ignore now1) db.review_codes
        (Resp.okSubmitted (parse_code_lines raw).length,
         { db with review_codes := codes })

/-- The `POST /api/admin/codes/delete` handler body: format check, then
`DELETE FROM review_codes WHERE code = ?`, reporting the deleted rowcount. -/
def api_admin_delete_code (rawCode : String) (db : DBState) : Resp × DBState :=
  let code := pyStrip rawCode
  if !CODE_RE_fullmatch code then (Resp.err 400 "invalid_code_format", db)
  else
    let remaining := db.review_codes.filter (fun p => p.1 ≠ code)
    (Resp.okDeleted (db.review_codes.length - remaining.length),
     { db with review_codes := remaining })

/-- The ambient secret sources: `credential n` is `read_credential(n)`
(which yields `""` when `$CREDENTIALS_DIRECTORY` is unset, the file is
missing, or reading fails), and `env n` is `os.environ.get(n, "")`. -/
structure SecretsEnv where
  credential : String → String
  env : String → String

/-- `get_secret(env_name, cred_name)`: prefer the systemd credential, falling
back to the environment variable when the credential is empty. -/
def get_secret (s : SecretsEnv) (env_name cred_name : String) : String :=
  let v := s.credential cred_name
  if v ≠ "" then v else s.env env_name

/-- The `POST /api/admin/login` handler: configured-password guard, then a
constant-time password comparison; on success the session's `is_admin` flag
is set.  Returns the response and the session flag after the call. -/
def api_admin_login (adminPassword pw : String) (is_admin : Bool) :
    Resp × Bool :=
  if adminPassword = "" then (Resp.err 500 "admin_not_configured", is_admin)
  else if pw ≠ adminPassword then (Resp.err 401 "bad_password", is_admin)
  else (Resp.okTrue, true)

/-- `require_ajax_header()`: the `X-Requested-With` header must equal
`smr-admin`. -/
def require_ajax_header (xRequestedWith : Option String) : Bool :=
  xRequestedWith = some "smr-admin"

/-- The `admin_write_required` decorator: session check (401), then the
anti-CSRF header check on state-changing methods (400), and only then the
wrapped handler.  The handler is a thunk so that the guards returning early
model "the handler body is never invoked". -/
def admin_write_required (is_admin : Bool) (method : String)
    (xRequestedWith : Option String) (handler : Unit → Resp × DBState)
    (db : DBState) : Resp × DBState :=
  if !is_admin then (Resp.err 401 "unauthorized", db)
  else if ["POST", "PUT", "PATCH", "DELETE"].contains method
          && !require_ajax_header xRequestedWith then
    (Resp.err 400 "bad_request", db)
  else handler ()

/-- The number of rows currently in the `reviews` table (0 when absent). -/
def reviewRows (db : DBState) : Nat :=
  match db.reviews_table with
  | none => 0
  | some (_, rows) => rows.length

/-- The number of rows of `review_codes` that the redemption predicate
`code = c AND used_at IS NULL` matches. -/
def availCount (db : DBState) (c : String) : Nat :=
  db.review_codes.countP (fun p => decide (p.1 = c ∧ p.2.used_at = none))

/-- `cols` contains at least one of the columns `submit_review` can insert. -/
def supported_cols_present (cols : List String) : Bool :=
  cols.contains "name" || cols.contains "email" || cols.contains "rating" ||
  cols.contains "message" || cols.contains "created_at"

/-- Sequential composition of `/submit-review` transactions: since every
redemption runs under `BEGIN IMMEDIATE`, the store serialises the concurrent
transactions, and any concurrent execution is one of these sequential
orders. -/
def submit_all : List (IncomingReview × Nat) → DBState → List Resp × DBState
  | [], db => ([], db)
  | (q, t) :: rest, db =>
    let out := submit_review q t db
    let outs := submit_all rest out.2
    (out.1 :: outs.1, outs.2)

/-- The store operations that touch `review_codes`, for stating the state
invariant they all preserve. -/
inductive StoreOp where
  | submit (q : IncomingReview) (t : Nat)
  | addCodes (raw : String) (t : Nat)
  | deleteCode (rawCode : String)

/-- Apply one store operation. -/
def applyOp : StoreOp → DBState → Resp × DBState
  | .submit q t, db => submit_review q t db
  | .addCodes raw t, db => api_admin_add_codes raw t db
  | .deleteCode rawCode, db => api_admin_delete_code rawCode db

/-- The number of `Accepted` (`{ok:true}`) outcomes in a list of responses. -/
def countOk (rs : List Resp) : Nat :=
  rs.countP (fun r => decide (r = Resp.okTrue))

/-! ### Concrete test fixtures (used to instantiate the theorems) -/

/-- A well-formed review submission for the pre-seeded code `123`. -/
def wq : IncomingReview :=
  { name := "Alice", email := "", rating := some (Rating.rint 5),
    message := "Great!", code := "123" }

/-- The same submission with a malformed (non-3-digit) code. -/
def wqBadCode : IncomingReview :=
  { name := "Alice", email := "", rating := some (Rating.rint 5),
    message := "Great!", code := "12a" }

/-- A `review_codes` row for a code that has already been redeemed. -/
def wUsedRow : CodeRow :=
  { created_at := 0, used_at := some 1,
    used_by_email := none, used_by_name := some "Bob" }

/-- A store with the unredeemed code `123` and a full `reviews` schema. -/
def wdb : DBState :=
  { review_codes := [("123", freshCodeRow 0)]
    reviews_table :=
      some (["id", "name", "email", "rating", "message", "created_at"], []) }

/-- A store whose only code `123` is already redeemed. -/
def wdbUsed : DBState :=
  { review_codes := [("123", wUsedRow)]
    reviews_table :=
      some (["id", "name", "email", "rating", "message", "created_at"], []) }

/-- A store with no codes at all. -/
def wdbEmpty : DBState :=
  { review_codes := []
    reviews_table :=
      some (["id", "name", "email", "rating", "message", "created_at"], []) }

/-- A store whose `reviews` table is missing (`has_table` false). -/
def wdbNoTable : DBState :=
  { review_codes := [("123", freshCodeRow 0)], reviews_table := none }

/-- A store whose `reviews` table has no supported column. -/
def wdbNoCols : DBState :=
  { review_codes := [("123", freshCodeRow 0)]
    reviews_table := some (["id"], []) }

/-- A secrets environment with no credential and no environment variable. -/
def wSecretsEmpty : SecretsEnv :=
  { credential := fun _ => "", env := fun _ => "" }

/-! ### Lemmas about the conditional update -/

theorem updateCodes_count (t : Nat) (e : Option String) (nm c : String)
    (l : List (String × CodeRow)) :
    (updateCodes t e nm c l).2 =
      l.countP (fun p => decide (p.1 = c ∧ p.2.used_at = none)) := by
  induction l with
  | nil => rfl
  | cons p rest ih =>
    obtain ⟨c0, r⟩ := p
    simp only [updateCodes, List.countP_cons]
    by_cases h : c0 = c ∧ r.used_at = none
    · simp [h, ih]
    · simp [h, ih]

theorem updateCodes_not_avail (t : Nat) (e : Option String) (nm c : String)
    (l : List (String × CodeRow)) :
    ∀ p ∈ (updateCodes t e nm c l).1, ¬(p.1 = c ∧ p.2.used_at = none) := by
  induction l with
  | nil => intro p hp; simp [updateCodes] at hp
  | cons q rest ih =>
    obtain ⟨c0, r⟩ := q
    intro p hp
    simp only [updateCodes] at hp
    by_cases h : c0 = c ∧ r.used_at = none
    · rw [if_pos h] at hp
      rcases List.mem_cons.mp hp with h1 | h1
      · subst h1; simp
      · exact ih p h1
    · rw [if_neg h] at hp
      rcases List.mem_cons.mp hp with h1 | h1
      · subst h1; exact h
      · exact ih p h1

theorem updateCodes_mem_frame (t : Nat) (e : Option String) (nm c : String)
    (l : List (String × CodeRow)) (c0 : String) (r : CodeRow)
    (hmem : (c0, r) ∈ l) (h : ¬(c0 = c ∧ r.used_at = none)) :
    (c0, r) ∈ (updateCodes t e nm c l).1 := by
  induction l with
  | nil => simp at hmem
  | cons q rest ih =>
    obtain ⟨c1, r1⟩ := q
    simp only [updateCodes]
    rcases List.mem_cons.mp hmem with h1 | h1
    · obtain ⟨hc, hr⟩ := Prod.mk.injEq .. ▸ h1
      subst hc; subst hr
      rw [if_neg h]
      exact List.mem_cons_self _ _
    · by_cases h2 : c1 = c ∧ r1.used_at = none
      · rw [if_pos h2]; exact List.mem_cons_of_mem _ (ih h1)
      · rw [if_neg h2]; exact List.mem_cons_of_mem _ (ih h1)

theorem updateCodes_mem_unredeemed (t : Nat) (e : Option String) (nm c : String)
    (l : List (String × CodeRow)) (c0 : String) (r : CodeRow)
    (hmem : (c0, r) ∈ (updateCodes t e nm c l).1) (h : r.used_at = none) :
    (c0, r) ∈ l := by
  induction l with
  | nil => simp [updateCodes] at hmem
  | cons q rest ih =>
    obtain ⟨c1, r1⟩ := q
    simp only [updateCodes] at hmem
    by_cases h2 : c1 = c ∧ r1.used_at = none
    · rw [if_pos h2] at hmem
      rcases List.mem_cons.mp hmem with h1 | h1
      · obtain ⟨hc, hr⟩ := Prod.mk.injEq .. ▸ h1
        rw [hr] at h; simp at h
      · exact List.mem_cons_of_mem _ (ih h1)
    · rw [if_neg h2] at hmem
      rcases List.mem_cons.mp hmem with h1 | h1
      · exact List.mem_cons.mpr (Or.inl h1)
      · exact List.mem_cons_of_mem _ (ih h1)

theorem updateCodes_redeems (t : Nat) (e : Option String) (nm c : String)
    (l : List (String × CodeRow)) (hpos : 0 < (updateCodes t e nm c l).2) :
    ∃ r0, (c, r0) ∈ l ∧ r0.used_at = none ∧
      (c, { r0 with used_at := some t, used_by_email := e,
                    used_by_name := some nm }) ∈ (updateCodes t e nm c l).1 := by
  induction l with
  | nil => simp [updateCodes] at hpos
  | cons q rest ih =>
    obtain ⟨c1, r1⟩ := q
    simp only [updateCodes] at hpos ⊢
    by_cases h2 : c1 = c ∧ r1.used_at = none
    · refine ⟨r1, ?_, h2.2, ?_⟩
      · rw [h2.1]; exact List.mem_cons_self _ _
      · rw [if_pos h2]; rw [h2.1]; exact List.mem_cons_self _ _
    · rw [if_neg h2] at hpos ⊢
      obtain ⟨r0, hr0, hnull, hupd⟩ := ih hpos
      exact ⟨r0, List.mem_cons_of_mem _ hr0, hnull, List.mem_cons_of_mem _ hupd⟩

/-! ### Lemmas about availability counting -/

theorem availCount_eq_zero (db : DBState) (c : String) :
    availCount db c = 0 ↔ ∀ r, (c, r) ∈ db.review_codes → r.used_at ≠ none := by
  unfold availCount
  rw [List.countP_eq_zero]
  constructor
  · intro h r hmem hnull
    have := h (c, r) hmem
    simp [hnull] at this
  · intro h p hmem
    simp only [decide_eq_true_eq]
    rintro ⟨hc, hnull⟩
    obtain ⟨c0, r⟩ := p
    simp only at hc hnull
    subst hc
    exact h r hmem hnull

theorem availCount_one_of_nodup (db : DBState) (c : String) (r0 : CodeRow)
    (hwf : (db.review_codes.map Prod.fst).Nodup)
    (hmem : (c, r0) ∈ db.review_codes) (hnull : r0.used_at = none) :
    availCount db c = 1 := by
  unfold availCount
  obtain ⟨codes⟩ := db
  simp only at hwf hmem ⊢
  induction codes with
  | nil => simp at hmem
  | cons p rest ih =>
    obtain ⟨c1, r1⟩ := p
    simp only [List.map_cons, List.nodup_cons] at hwf
    rcases List.mem_cons.mp hmem with h1 | h1
    · obtain ⟨hc, hr⟩ := Prod.mk.injEq .. ▸ h1
      subst hc; subst hr
      have hrest : rest.countP (fun p => decide (p.1 = c ∧ p.2.used_at = none)) = 0 := by
        rw [List.countP_eq_zero]
        intro p hp
        simp only [decide_eq_true_eq]
        rintro ⟨hc, -⟩
        exact hwf.1 (hc ▸ List.mem_map_of_mem Prod.fst hp)
      rw [List.countP_cons_of_pos, hrest]
      simp [hnull]
    · have hne : c1 ≠ c := by
        rintro rfl
        exact hwf.1 (List.mem_map_of_mem Prod.fst h1)
      have := ih hwf.2 h1
      rw [List.countP_cons_of_neg, this]
      simp [hne]

/-! ### Equation lemmas for `submit_review` -/

theorem redeemUpd_count (q : IncomingReview) (t : Nat) (db : DBState) :
    (redeemUpd q t db).2 = availCount db q.code := by
  unfold redeemUpd availCount
  rw [updateCodes_count]

theorem build_insert_row_ne_nil (cols : List String) (nm : String)
    (e : Option String) (r : Int) (m : String) (t : Nat)
    (h : supported_cols_present cols = true) :
    build_insert_row cols nm e r m t ≠ [] := by
  unfold supported_cols_present at h
  unfold build_insert_row
  intro hnil
  simp only [Bool.or_eq_true] at h
  simp [List.append_eq_nil] at hnil
  rcases h with ((((h | h) | h) | h) | h) <;> simp at h <;> tauto

theorem submit_review_validate_error (q : IncomingReview) (t : Nat)
    (db : DBState) (r : Resp)
    (hv : validate_review (parse_incoming_review q) = Except.error r) :
    submit_review q t db = (r, db) := by
  simp only [submit_review, hv]

theorem submit_review_missing_table (q : IncomingReview) (t : Nat)
    (db : DBState) (n : Int)
    (hv : validate_review (parse_incoming_review q) = Except.ok n)
    (htab : db.reviews_table = none) :
    submit_review q t db = (Resp.err 500 "missing_reviews_table", db) := by
  simp only [submit_review, hv, htab]

theorem submit_review_rowcount_ne_one (q : IncomingReview) (t : Nat)
    (db : DBState) (n : Int) (cols : List String)
    (rows : List (List (String × Val)))
    (hv : validate_review (parse_incoming_review q) = Except.ok n)
    (htab : db.reviews_table = some (cols, rows))
    (hcount : (redeemUpd (parse_incoming_review q) t db).2 ≠ 1) :
    submit_review q t db = (Resp.err 403 "invalid_code", db) := by
  simp only [submit_review, hv, htab]
  rw [if_pos hcount]

theorem submit_review_no_cols (q : IncomingReview) (t : Nat)
    (db : DBState) (n : Int) (cols : List String)
    (rows : List (List (String × Val)))
    (hv : validate_review (parse_incoming_review q) = Except.ok n)
    (htab : db.reviews_table = some (cols, rows))
    (hcount : (redeemUpd (parse_incoming_review q) t db).2 = 1)
    (hrow : build_insert_row cols (parse_incoming_review q).name
        (emailOpt (parse_incoming_review q)) n
        (parse_incoming_review q).message t = []) :
    submit_review q t db =
      (Resp.err 500 "reviews_table_has_no_supported_columns", db) := by
  simp only [submit_review, hv, htab]
  rw [if_neg (by simp [hcount]), if_pos hrow]

theorem submit_review_success_eq (q : IncomingReview) (t : Nat)
    (db : DBState) (n : Int) (cols : List String)
    (rows : List (List (String × Val)))
    (hv : validate_review (parse_incoming_review q) = Except.ok n)
    (htab : db.reviews_table = some (cols, rows))
    (hcount : (redeemUpd (parse_incoming_review q) t db).2 = 1)
    (hrow : build_insert_row cols (parse_incoming_review q).name
        (emailOpt (parse_incoming_review q)) n
        (parse_incoming_review q).message t ≠ []) :
    submit_review q t db =
      (Resp.okTrue,
       { review_codes := (redeemUpd (parse_incoming_review q) t db).1
         reviews_table := some (cols, rows ++
           [build_insert_row cols (parse_incoming_review q).name
              (emailOpt (parse_incoming_review q)) n
              (parse_incoming_review q).message t]) }) := by
  simp only [submit_review, hv, htab]
  rw [if_neg (by simp [hcount]), if_neg hrow]

/-! ### Behavioural lemmas for `submit_review` -/

theorem validate_review_error_ne_ok (q : IncomingReview) (r : Resp)
    (hv : validate_review q = Except.error r) : r ≠ Resp.okTrue := by
  unfold validate_review at hv
  split at hv
  · intro hh; subst hh; exact Resp.noConfusion (Except.error.inj hv)
  · split at hv
    · intro hh; subst hh; exact Resp.noConfusion (Except.error.inj hv)
    · split at hv
      · split at hv
        · intro hh; subst hh; exact Resp.noConfusion (Except.error.inj hv)
        · simp_all
      · intro hh; subst hh; exact Resp.noConfusion (Except.error.inj hv)

theorem submit_review_rollback (q : IncomingReview) (t : Nat) (db : DBState)
    (h : (submit_review q t db).1 ≠ Resp.okTrue) :
    (submit_review q t db).2 = db := by
  cases hv : validate_review (parse_incoming_review q) with
  | error r => rw [submit_review_validate_error q t db r hv]
  | ok n =>
    cases htab : db.reviews_table with
    | none => rw [submit_review_missing_table q t db n hv htab]
    | some p =>
      obtain ⟨cols, rows⟩ := p
      by_cases hcount : (redeemUpd (parse_incoming_review q) t db).2 ≠ 1
      · rw [submit_review_rowcount_ne_one q t db n cols rows hv htab hcount]
      · rw [not_not] at hcount
        by_cases hrow : build_insert_row cols (parse_incoming_review q).name
            (emailOpt (parse_incoming_review q)) n
            (parse_incoming_review q).message t = []
        · rw [submit_review_no_cols q t db n cols rows hv htab hcount hrow]
        · rw [submit_review_success_eq q t db n cols rows hv htab hcount hrow]
            at h
          simp at h

theorem submit_review_ok_avail (q : IncomingReview) (t : Nat) (db : DBState)
    (h : (submit_review q t db).1 = Resp.okTrue) :
    availCount db (parse_incoming_review q).code = 1 := by
  cases hv : validate_review (parse_incoming_review q) with
  | error r =>
    rw [submit_review_validate_error q t db r hv] at h
    exact absurd h (validate_review_error_ne_ok _ r hv)
  | ok n =>
    cases htab : db.reviews_table with
    | none =>
      rw [submit_review_missing_table q t db n hv htab] at h
      simp at h
    | some p =>
      obtain ⟨cols, rows⟩ := p
      by_cases hcount : (redeemUpd (parse_incoming_review q) t db).2 ≠ 1
      · rw [submit_review_rowcount_ne_one q t db n cols rows hv htab hcount]
          at h
        simp at h
      · rw [not_not] at hcount
        rw [← redeemUpd_count (parse_incoming_review q) t db]
        exact hcount

theorem submit_review_ok_shape (q : IncomingReview) (t : Nat) (db : DBState)
    (cols : List String) (rows : List (List (String × Val)))
    (htab : db.reviews_table = some (cols, rows))
    (h : (submit_review q t db).1 = Resp.okTrue) :
    ∃ row, row ≠ [] ∧
      (submit_review q t db).2 =
        { review_codes := (redeemUpd (parse_incoming_review q) t db).1
          reviews_table := some (cols, rows ++ [row]) } := by
  cases hv : validate_review (parse_incoming_review q) with
  | error r =>
    rw [submit_review_validate_error q t db r hv] at h
    exact absurd h (validate_review_error_ne_ok _ r hv)
  | ok n =>
    by_cases hcount : (redeemUpd (parse_incoming_review q) t db).2 ≠ 1
    · rw [submit_review_rowcount_ne_one q t db n cols rows hv htab hcount] at h
      simp at h
    · rw [not_not] at hcount
      by_cases hrow : build_insert_row cols (parse_incoming_review q).name
          (emailOpt (parse_incoming_review q)) n
          (parse_incoming_review q).message t = []
      · rw [submit_review_no_cols q t db n cols rows hv htab hcount hrow] at h
        simp at h
      · refine ⟨_, hrow, ?_⟩
        rw [submit_review_success_eq q t db n cols rows hv htab hcount hrow]

theorem submit_review_ok_post_avail (q : IncomingReview) (t : Nat)
    (db : DBState) (cols : List String) (rows : List (List (String × Val)))
    (htab : db.reviews_table = some (cols, rows))
    (h : (submit_review q t db).1 = Resp.okTrue) :
    availCount (submit_review q t db).2 (parse_incoming_review q).code = 0 := by
  obtain ⟨row, -, hshape⟩ := submit_review_ok_shape q t db cols rows htab h
  rw [hshape]
  unfold availCount
  simp only
  rw [List.countP_eq_zero]
  intro p hp
  have := updateCodes_not_avail t (emailOpt (parse_incoming_review q))
    (parse_incoming_review q).name (parse_incoming_review q).code
    db.review_codes p hp
  simpa using this

theorem submit_review_avail_zero (q : IncomingReview) (t : Nat) (db : DBState)
    (n : Int) (cols : List String) (rows : List (List (String × Val)))
    (hv : validate_review (parse_incoming_review q) = Except.ok n)
    (htab : db.reviews_table = some (cols, rows))
    (hzero : availCount db (parse_incoming_review q).code = 0) :
    submit_review q t db = (Resp.err 403 "invalid_code", db) := by
  refine submit_review_rowcount_ne_one q t db n cols rows hv htab ?_
  rw [redeemUpd_count, hzero]
  decide

theorem submit_review_resp_cases (q : IncomingReview) (t : Nat) (db : DBState)
    (n : Int) (cols : List String) (rows : List (List (String × Val)))
    (hv : validate_review (parse_incoming_review q) = Except.ok n)
    (htab : db.reviews_table = some (cols, rows))
    (hsup : supported_cols_present cols = true) :
    (submit_review q t db).1 = Resp.okTrue ∨
      (submit_review q t db).1 = Resp.err 403 "invalid_code" := by
  by_cases hcount : (redeemUpd (parse_incoming_review q) t db).2 ≠ 1
  · right
    rw [submit_review_rowcount_ne_one q t db n cols rows hv htab hcount]
  · left
    rw [not_not] at hcount
    have hrow := build_insert_row_ne_nil cols (parse_incoming_review q).name
      (emailOpt (parse_incoming_review q)) n
      (parse_incoming_review q).message t hsup
    rw [submit_review_success_eq q t db n cols rows hv htab hcount hrow]

/-! ### Sequences of redemption transactions -/

theorem submit_all_avail_zero (reqs : List (IncomingReview × Nat))
    (db : DBState) (code : String) (cols : List String)
    (rows : List (List (String × Val)))
    (hcode : ∀ p ∈ reqs, (parse_incoming_review p.1).code = code)
    (hval : ∀ p ∈ reqs, ∃ n,
      validate_review (parse_incoming_review p.1) = Except.ok n)
    (htab : db.reviews_table = some (cols, rows))
    (hzero : availCount db code = 0) :
    submit_all reqs db =
      (reqs.map (fun _ => Resp.err 403 "invalid_code"), db) := by
  induction reqs with
  | nil => rfl
  | cons p rest ih =>
    obtain ⟨q, t⟩ := p
    obtain ⟨n, hv⟩ := hval (q, t) (List.mem_cons_self _ _)
    have hc := hcode (q, t) (List.mem_cons_self _ _)
    have h1 : submit_review q t db = (Resp.err 403 "invalid_code", db) :=
      submit_review_avail_zero q t db n cols rows hv htab (by rw [hc]; exact hzero)
    have ih1 := ih (fun p hp => hcode p (List.mem_cons_of_mem _ hp))
      (fun p hp => hval p (List.mem_cons_of_mem _ hp))
    simp only [submit_all, h1, ih1, List.map_cons]

theorem submit_all_spec (reqs : List (IncomingReview × Nat)) :
    ∀ (db : DBState) (cols : List String) (rows : List (List (String × Val))),
    (∀ p ∈ reqs, (parse_incoming_review p.1).code = code) →
    (∀ p ∈ reqs, ∃ n,
      validate_review (parse_incoming_review p.1) = Except.ok n) →
    db.reviews_table = some (cols, rows) →
    supported_cols_present cols = true →
    countOk (submit_all reqs db).1 ≤ 1
    ∧ (∀ r ∈ (submit_all reqs db).1,
         r = Resp.okTrue ∨ r = Resp.err 403 "invalid_code")
    ∧ reviewRows (submit_all reqs db).2 =
        reviewRows db + countOk (submit_all reqs db).1 := by
  induction reqs with
  | nil =>
    intro db cols rows _ _ _ _
    refine ⟨by simp [submit_all, countOk], by simp [submit_all], ?_⟩
    simp [submit_all, countOk]
  | cons p rest ih =>
    intro db cols rows hcode hval htab hsup
    obtain ⟨q, t⟩ := p
    obtain ⟨n, hv⟩ := hval (q, t) (List.mem_cons_self _ _)
    have hc := hcode (q, t) (List.mem_cons_self _ _)
    have hcode' := fun p hp => hcode p (List.mem_cons_of_mem _ hp)
    have hval' := fun p hp => hval p (List.mem_cons_of_mem _ hp)
    by_cases hok : (submit_review q t db).1 = Resp.okTrue
    · obtain ⟨row, -, hshape⟩ := submit_review_ok_shape q t db cols rows htab hok
      have hpost := submit_review_ok_post_avail q t db cols rows htab hok
      rw [hshape] at hpost
      rw [hc] at hpost
      have hall := submit_all_avail_zero rest
        { review_codes := (redeemUpd (parse_incoming_review q) t db).1
          reviews_table := some (cols, rows ++ [row]) }
        code cols (rows ++ [row]) hcode' hval' rfl hpost
      have hpair : submit_review q t db =
          (Resp.okTrue,
           { review_codes := (redeemUpd (parse_incoming_review q) t db).1
             reviews_table := some (cols, rows ++ [row]) }) := by
        rw [← hok, ← hshape]
      refine ⟨?_, ?_, ?_⟩
      · simp only [submit_all, hpair, hall]
        simp [countOk, List.countP_map, List.countP_eq_zero]
      · simp only [submit_all, hpair, hall]
        intro r hr
        rcases List.mem_cons.mp hr with h | h
        · exact Or.inl h
        · right
          obtain ⟨-, -, hmap⟩ := List.mem_map.mp h
          exact hmap.symm
      · simp only [submit_all, hpair, hall]
        simp [countOk, List.countP_map, List.countP_eq_zero, reviewRows, htab]
    · have hroll : (submit_review q t db).2 = db :=
        submit_review_rollback q t db hok
      have h403 : (submit_review q t db).1 = Resp.err 403 "invalid_code" := by
        rcases submit_review_resp_cases q t db n cols rows hv htab hsup with h | h
        · exact absurd h hok
        · exact h
      obtain ⟨ih1, ih2, ih3⟩ := ih db cols rows hcode' hval' htab hsup
      refine ⟨?_, ?_, ?_⟩
      · simp only [submit_all, hroll]
        simpa [countOk, List.countP_cons, h403] using ih1
      · simp only [submit_all, hroll]
        intro r hr
        rcases List.mem_cons.mp hr with h | h
        · rw [h, h403]; exact Or.inr rfl
        · exact ih2 r h
      · simp only [submit_all, hroll]
        simpa [countOk, List.countP_cons, h403] using ih3

/-! ### State-shape lemmas for the code-management operations -/

theorem submit_review_codes_cases (q : IncomingReview) (t : Nat)
    (db : DBState) :
    (submit_review q t db).2.review_codes = db.review_codes ∨
      (submit_review q t db).2.review_codes =
        (redeemUpd (parse_incoming_review q) t db).1 := by
  cases hv : validate_review (parse_incoming_review q) with
  | error r => rw [submit_review_validate_error q t db r hv]; exact Or.inl rfl
  | ok n =>
    cases htab : db.reviews_table with
    | none =>
      rw [submit_review_missing_table q t db n hv htab]; exact Or.inl rfl
    | some p =>
      obtain ⟨cols, rows⟩ := p
      by_cases hcount : (redeemUpd (parse_incoming_review q) t db).2 ≠ 1
      · rw [submit_review_rowcount_ne_one q t db n cols rows hv htab hcount]
        exact Or.inl rfl
      · rw [not_not] at hcount
        by_cases hrow : build_insert_row cols (parse_incoming_review q).name
            (emailOpt (parse_incoming_review q)) n
            (parse_incoming_review q).message t = []
        · rw [submit_review_no_cols q t db n cols rows hv htab hcount hrow]
          exact Or.inl rfl
        · rw [submit_review_success_eq q t db n cols rows hv htab hcount hrow]
          exact Or.inr rfl

theorem submit_review_ok_codes (q : IncomingReview) (t : Nat) (db : DBState)
    (hok : (submit_review q t db).1 = Resp.okTrue) :
    (submit_review q t db).2.review_codes =
      (redeemUpd (parse_incoming_review q) t db).1 := by
  cases hv : validate_review (parse_incoming_review q) with
  | error r =>
    rw [submit_review_validate_error q t db r hv] at hok
    exact absurd hok (validate_review_error_ne_ok _ r hv)
  | ok n =>
    cases htab : db.reviews_table with
    | none =>
      rw [submit_review_missing_table q t db n hv htab] at hok
      simp at hok
    | some p =>
      obtain ⟨cols, rows⟩ := p
      by_cases hcount : (redeemUpd (parse_incoming_review q) t db).2 ≠ 1
      · rw [submit_review_rowcount_ne_one q t db n cols rows hv htab hcount]
          at hok
        simp at hok
      · rw [not_not] at hcount
        by_cases hrow : build_insert_row cols (parse_incoming_review q).name
            (emailOpt (parse_incoming_review q)) n
            (parse_incoming_review q).message t = []
        · rw [submit_review_no_cols q t db n cols rows hv htab hcount hrow]
            at hok
          simp at hok
        · rw [submit_review_success_eq q t db n cols rows hv htab hcount hrow]

theorem api_admin_add_codes_state (raw : String) (t : Nat) (db : DBState) :
    (api_admin_add_codes raw t db).2 = db ∨
      (api_admin_add_codes raw t db).2 =
        { db with review_codes := (parse_code_lines raw).foldl (insert_or_ignore t) db.review_codes } := by
  unfold api_admin_add_codes
  by_cases h0 : pyStrip raw = ""
  · rw [if_pos h0]; exact Or.inl rfl
  · rw [if_neg h0]
    cases hbad : firstBadCode (parse_code_lines raw) with
    | some c => exact Or.inl rfl
    | none => exact Or.inr rfl

theorem api_admin_delete_code_state (rawCode : String) (db : DBState) :
    (api_admin_delete_code rawCode db).2 = db ∨
      (api_admin_delete_code rawCode db).2 =
        { db with review_codes := db.review_codes.filter (fun p => p.1 ≠ pyStrip rawCode) } := by
  unfold api_admin_delete_code
  by_cases h0 : CODE_RE_fullmatch (pyStrip rawCode) = true
  · rw [if_neg (by simp [h0])]; exact Or.inr rfl
  · rw [if_pos (by simp [Bool.not_eq_true] at h0 ⊢; exact h0)]
    exact Or.inl rfl

theorem insert_or_ignore_mem (t : Nat) (codes : List (String × CodeRow))
    (c' : String) (p : String × CodeRow) (hmem : p ∈ codes) :
    p ∈ insert_or_ignore t codes c' := by
  unfold insert_or_ignore
  by_cases h : (codes.map Prod.fst).contains c'
  · rw [if_pos h]; exact hmem
  · rw [if_neg h]; exact List.mem_append_left _ hmem

theorem insert_or_ignore_mem_rev (t : Nat) (codes : List (String × CodeRow))
    (c' : String) (p : String × CodeRow)
    (hmem : p ∈ insert_or_ignore t codes c') :
    p ∈ codes ∨ (p.1 = c' ∧ p.2 = freshCodeRow t) := by
  unfold insert_or_ignore at hmem
  by_cases h : (codes.map Prod.fst).contains c'
  · rw [if_pos h] at hmem; exact Or.inl hmem
  · rw [if_neg h] at hmem
    rcases List.mem_append.mp hmem with h1 | h1
    · exact Or.inl h1
    · right
      have := List.mem_singleton.mp h1
      rw [this]
      exact ⟨rfl, rfl⟩

theorem foldl_insert_mem (t : Nat) (p : String × CodeRow) :
    ∀ (lines : List String) (codes : List (String × CodeRow)),
      p ∈ codes → p ∈ lines.foldl (insert_or_ignore t) codes := by
  intro lines
  induction lines with
  | nil => intro codes h; exact h
  | cons l rest ih =>
    intro codes h
    exact ih (insert_or_ignore t codes l) (insert_or_ignore_mem t codes l p h)

theorem foldl_insert_mem_rev (t : Nat) (p : String × CodeRow) :
    ∀ (lines : List String) (codes : List (String × CodeRow)),
      p ∈ lines.foldl (insert_or_ignore t) codes →
      p ∈ codes ∨ (p.1 ∈ lines ∧ p.2 = freshCodeRow t) := by
  intro lines
  induction lines with
  | nil => intro codes h; exact Or.inl h
  | cons l rest ih =>
    intro codes h
    rcases ih (insert_or_ignore t codes l) h with h1 | h1
    · rcases insert_or_ignore_mem_rev t codes l p h1 with h2 | h2
      · exact Or.inl h2
      · exact Or.inr ⟨by rw [h2.1]; exact List.mem_cons_self _ _, h2.2⟩
    · exact Or.inr ⟨List.mem_cons_of_mem _ h1.1, h1.2⟩

theorem firstBadCode_spec (ls : List String)
    (h : ∃ l ∈ ls, CODE_RE_fullmatch l = false) :
    ∃ c, firstBadCode ls = some c ∧ c ∈ ls ∧ CODE_RE_fullmatch c = false := by
  induction ls with
  | nil => simp at h
  | cons l rest ih =>
    cases hb : CODE_RE_fullmatch l with
    | false =>
      exact ⟨l, by simp [firstBadCode, hb], List.mem_cons_self _ _, hb⟩
    | true =>
      have hrest : ∃ x ∈ rest, CODE_RE_fullmatch x = false := by
        obtain ⟨x, hx, hxf⟩ := h
        rcases List.mem_cons.mp hx with rfl | hx
        · rw [hb] at hxf; exact absurd hxf (by simp)
        · exact ⟨x, hx, hxf⟩
      obtain ⟨c, hfc, hcm, hcf⟩ := ih hrest
      refine ⟨c, ?_, List.mem_cons_of_mem _ hcm, hcf⟩
      simp [firstBadCode, hb, hfc]

theorem parse_code_lines_of_strip_empty (raw : String)
    (h : pyStrip raw = "") :
    parse_code_lines raw = [] := by
  unfold parse_code_lines
  rw [h]
  rfl

/-! ### The claims -/

/-- Claim C1: for every (serialised) collection of concurrent `/submit-review`
redemption transactions on the same code, at most one observes a conditional
update rowcount of 1 and succeeds, every other attempt returns
`Rejected(InvalidOrUsedCode)` (HTTP 403, `invalid_code`), and the number of
review rows created equals the number of successes, hence is at most 1. -/
theorem c1_concurrent_redemption_at_most_one
    (reqs : List (IncomingReview × Nat)) (db : DBState) (code : String)
    (cols : List String) (rows : List (List (String × Val)))
    (hcode : ∀ p ∈ reqs, (parse_incoming_review p.1).code = code)
    (hval : ∀ p ∈ reqs, ∃ n,
      validate_review (parse_incoming_review p.1) = Except.ok n)
    (htab : db.reviews_table = some (cols, rows))
    (hsup : supported_cols_present cols = true) :
    countOk (submit_all reqs db).1 ≤ 1
    ∧ (∀ r ∈ (submit_all reqs db).1,
         r = Resp.okTrue ∨ r = Resp.err 403 "invalid_code")
    ∧ reviewRows (submit_all reqs db).2 =
        reviewRows db + countOk (submit_all reqs db).1 :=
  submit_all_spec reqs db cols rows hcode hval htab hsup

theorem c1_witness :
    countOk (submit_all [(wq, 0), (wq, 1)] wdb).1 ≤ 1
    ∧ reviewRows (submit_all [(wq, 0), (wq, 1)] wdb).2 =
        reviewRows wdb + countOk (submit_all [(wq, 0), (wq, 1)] wdb).1 := by
  have h := c1_concurrent_redemption_at_most_one [(wq, 0), (wq, 1)] wdb "123"
    ["id", "name", "email", "rating", "message", "created_at"] []
    (by
      intro p hp
      rcases List.mem_cons.mp hp with rfl | hp2
      · decide
      rcases List.mem_cons.mp hp2 with rfl | hp3
      · decide
      · exact absurd hp3 (List.not_mem_nil p))
    (by
      intro p hp
      rcases List.mem_cons.mp hp with rfl | hp2
      · exact ⟨5, rfl⟩
      rcases List.mem_cons.mp hp2 with rfl | hp3
      · exact ⟨5, rfl⟩
      · exact absurd hp3 (List.not_mem_nil p))
    rfl (by decide)
  exact ⟨h.1, h.2.2⟩

/-- Claim C2: when the conditional update matches no row — the submitted code
either has no row in `review_codes` or its row has `used_at` non-null — the
handler rolls the transaction back (the store is returned unchanged) and
returns HTTP 403 with error `invalid_code`, the identical outcome in both
cases, so a never-issued code and an already-redeemed code are
indistinguishable to the caller. -/
theorem c2_invalid_and_used_code_indistinguishable
    (q : IncomingReview) (t : Nat) (db : DBState) (n : Int)
    (cols : List String) (rows : List (List (String × Val)))
    (hval : validate_review (parse_incoming_review q) = Except.ok n)
    (htab : db.reviews_table = some (cols, rows))
    (hcode : ∀ r, ((parse_incoming_review q).code, r) ∈ db.review_codes →
      r.used_at ≠ none) :
    submit_review q t db = (Resp.err 403 "invalid_code", db) :=
  submit_review_avail_zero q t db n cols rows hval htab
    ((availCount_eq_zero db _).mpr hcode)

theorem c2_witness :
    submit_review wq 2 wdbEmpty = (Resp.err 403 "invalid_code", wdbEmpty)
    ∧ submit_review wq 2 wdbUsed = (Resp.err 403 "invalid_code", wdbUsed) := by
  constructor
  · exact c2_invalid_and_used_code_indistinguishable wq 2 wdbEmpty 5
      ["id", "name", "email", "rating", "message", "created_at"] [] rfl rfl
      (by
        intro r hr
        exact absurd hr (List.not_mem_nil _))
  · exact c2_invalid_and_used_code_indistinguishable wq 2 wdbUsed 5
      ["id", "name", "email", "rating", "message", "created_at"] [] rfl rfl
      (by
        intro r hr
        have hr2 := List.mem_singleton.mp hr
        have hrow : r = wUsedRow := congrArg Prod.snd hr2
        rw [hrow]
        decide)

/-- Claim C3: redemption is not idempotent.  For a code present (under the
primary-key invariant) and unredeemed, a valid submission succeeds and adds
exactly one review row, and replaying the same request afterwards returns
HTTP 403 `invalid_code` with the store unchanged (no additional review). -/
theorem c3_redemption_not_idempotent
    (q : IncomingReview) (t t2 : Nat) (db : DBState) (n : Int)
    (cols : List String) (rows : List (List (String × Val))) (r0 : CodeRow)
    (hwf : (db.review_codes.map Prod.fst).Nodup)
    (hval : validate_review (parse_incoming_review q) = Except.ok n)
    (hmem : ((parse_incoming_review q).code, r0) ∈ db.review_codes)
    (hunused : r0.used_at = none)
    (htab : db.reviews_table = some (cols, rows))
    (hsup : supported_cols_present cols = true) :
    (submit_review q t db).1 = Resp.okTrue
    ∧ reviewRows (submit_review q t db).2 = reviewRows db + 1
    ∧ submit_review q t2 (submit_review q t db).2 =
        (Resp.err 403 "invalid_code", (submit_review q t db).2) := by
  have hav : availCount db (parse_incoming_review q).code = 1 :=
    availCount_one_of_nodup db _ r0 hwf hmem hunused
  have hcount : (redeemUpd (parse_incoming_review q) t db).2 = 1 := by
    rw [redeemUpd_count]; exact hav
  have hrow := build_insert_row_ne_nil cols (parse_incoming_review q).name
    (emailOpt (parse_incoming_review q)) n
    (parse_incoming_review q).message t hsup
  have hs := submit_review_success_eq q t db n cols rows hval htab hcount hrow
  have hok : (submit_review q t db).1 = Resp.okTrue := by rw [hs]
  refine ⟨hok, ?_, ?_⟩
  · rw [hs]
    simp [reviewRows, htab]
  · have hpost := submit_review_ok_post_avail q t db cols rows htab hok
    have htab2 : (submit_review q t db).2.reviews_table =
        some (cols, rows ++
          [build_insert_row cols (parse_incoming_review q).name
            (emailOpt (parse_incoming_review q)) n
            (parse_incoming_review q).message t]) := by
      rw [hs]
    exact submit_review_avail_zero q t2 (submit_review q t db).2 n cols _ hval
      htab2 hpost

theorem c3_witness :
    (submit_review wq 0 wdb).1 = Resp.okTrue
    ∧ reviewRows (submit_review wq 0 wdb).2 = reviewRows wdb + 1
    ∧ (submit_review wq 1 (submit_review wq 0 wdb).2).1 =
        Resp.err 403 "invalid_code" := by
  have h := c3_redemption_not_idempotent wq 0 1 wdb 5
    ["id", "name", "email", "rating", "message", "created_at"] []
    (freshCodeRow 0) (by decide) rfl (by decide) (by decide) rfl (by decide)
  exact ⟨h.1, h.2.1, by rw [h.2.2]⟩

/-- Claim C4: state invariant of `review_codes` under every operation that
touches it (redeem, bulk add, delete).  A redeemed row (`used_at` non-null)
is never modified: it survives identically unless the operation is a delete
of exactly that code.  An unredeemed row in the result was either already
present unredeemed (never obtained by resetting a redeemed row) or freshly
inserted by the bulk add.  And a successful redemption consumes precisely a
row that was present with `used_at` null, setting `used_at`, `used_by_email`
and `used_by_name` atomically in that row — so a code goes unredeemed →
redeemed at most once and `used_at = none` characterises availability. -/
theorem c4_code_lifecycle_invariant (op : StoreOp) (db : DBState) :
    (∀ c r t0, (c, r) ∈ db.review_codes → r.used_at = some t0 →
       ((c, r) ∈ (applyOp op db).2.review_codes ∨
         ∃ s, op = StoreOp.deleteCode s ∧ pyStrip s = c))
    ∧ (∀ c r, (c, r) ∈ (applyOp op db).2.review_codes → r.used_at = none →
       ((c, r) ∈ db.review_codes ∨ ∃ t1, r = freshCodeRow t1))
    ∧ (∀ q t1, op = StoreOp.submit q t1 →
       (applyOp op db).1 = Resp.okTrue →
       ∃ r0, ((parse_incoming_review q).code, r0) ∈ db.review_codes ∧
         r0.used_at = none ∧
         ((parse_incoming_review q).code,
           { r0 with used_at := some t1
                     used_by_email := emailOpt (parse_incoming_review q)
                     used_by_name :=
                       some (parse_incoming_review q).name })
           ∈ (applyOp op db).2.review_codes) := by
  cases op with
  | submit q t =>
    refine ⟨?_, ?_, ?_⟩
    · intro c r t0 hmem hused
      left
      rcases submit_review_codes_cases q t db with h | h
      · show (c, r) ∈ (submit_review q t db).2.review_codes
        rw [h]; exact hmem
      · show (c, r) ∈ (submit_review q t db).2.review_codes
        rw [h]
        refine updateCodes_mem_frame t (emailOpt (parse_incoming_review q))
          (parse_incoming_review q).name (parse_incoming_review q).code
          db.review_codes c r hmem ?_
        rintro ⟨-, hn⟩
        rw [hused] at hn
        exact Option.noConfusion hn
    · intro c r hmem hnull
      left
      rcases submit_review_codes_cases q t db with h | h
      · rw [show (applyOp (StoreOp.submit q t) db).2.review_codes =
            db.review_codes from h] at hmem
        exact hmem
      · rw [show (applyOp (StoreOp.submit q t) db).2.review_codes =
            (redeemUpd (parse_incoming_review q) t db).1 from h] at hmem
        exact updateCodes_mem_unredeemed t (emailOpt (parse_incoming_review q))
          (parse_incoming_review q).name (parse_incoming_review q).code
          db.review_codes c r hmem hnull
    · intro q1 t1 heq hok
      injection heq with h1 h2
      rw [← h1, ← h2]
      have hav := submit_review_ok_avail q t db hok
      have hpos : 0 < (redeemUpd (parse_incoming_review q) t db).2 := by
        rw [redeemUpd_count, hav]
        decide
      have hpos2 : 0 < (updateCodes t (emailOpt (parse_incoming_review q))
          (parse_incoming_review q).name (parse_incoming_review q).code
          db.review_codes).2 := hpos
      obtain ⟨r0, hmem0, hnull0, hupd⟩ := updateCodes_redeems t
        (emailOpt (parse_incoming_review q)) (parse_incoming_review q).name
        (parse_incoming_review q).code db.review_codes hpos2
      refine ⟨r0, hmem0, hnull0, ?_⟩
      show _ ∈ (submit_review q t db).2.review_codes
      rw [submit_review_ok_codes q t db hok]
      exact hupd
  | addCodes raw t =>
    refine ⟨?_, ?_, ?_⟩
    · intro c r t0 hmem hused
      left
      rcases api_admin_add_codes_state raw t db with h | h
      · show (c, r) ∈ (api_admin_add_codes raw t db).2.review_codes
        rw [h]; exact hmem
      · show (c, r) ∈ (api_admin_add_codes raw t db).2.review_codes
        rw [h]
        exact foldl_insert_mem t (c, r) (parse_code_lines raw)
          db.review_codes hmem
    · intro c r hmem hnull
      rcases api_admin_add_codes_state raw t db with h | h
      · rw [show (applyOp (StoreOp.addCodes raw t) db).2.review_codes =
            db.review_codes from congrArg DBState.review_codes h] at hmem
        exact Or.inl hmem
      · rw [show (applyOp (StoreOp.addCodes raw t) db).2.review_codes =
            (parse_code_lines raw).foldl (insert_or_ignore t)
              db.review_codes from congrArg DBState.review_codes h] at hmem
        rcases foldl_insert_mem_rev t (c, r) (parse_code_lines raw)
            db.review_codes hmem with h1 | h1
        · exact Or.inl h1
        · exact Or.inr ⟨t, h1.2⟩
    · intro q1 t1 heq
      exact absurd heq (by intro hh; exact StoreOp.noConfusion hh)
  | deleteCode s =>
    refine ⟨?_, ?_, ?_⟩
    · intro c r t0 hmem hused
      rcases api_admin_delete_code_state s db with h | h
      · left
        show (c, r) ∈ (api_admin_delete_code s db).2.review_codes
        rw [h]; exact hmem
      · by_cases hc : c = pyStrip s
        · exact Or.inr ⟨s, rfl, hc.symm⟩
        · left
          show (c, r) ∈ (api_admin_delete_code s db).2.review_codes
          rw [h]
          refine List.mem_filter.mpr ⟨hmem, ?_⟩
          simpa using hc
    · intro c r hmem hnull
      left
      rcases api_admin_delete_code_state s db with h | h
      · rw [show (applyOp (StoreOp.deleteCode s) db).2.review_codes =
            db.review_codes from congrArg DBState.review_codes h] at hmem
        exact hmem
      · rw [show (applyOp (StoreOp.deleteCode s) db).2.review_codes =
            db.review_codes.filter (fun p => p.1 ≠ pyStrip s)
            from congrArg DBState.review_codes h] at hmem
        exact (List.mem_filter.mp hmem).1
    · intro q1 t1 heq
      exact absurd heq (by intro hh; exact StoreOp.noConfusion hh)

theorem c4_witness :
    ("123", wUsedRow) ∈
      (applyOp (StoreOp.addCodes "123\n456" 2) wdbUsed).2.review_codes := by
  rcases (c4_code_lifecycle_invariant (StoreOp.addCodes "123\n456" 2)
      wdbUsed).1 "123" wUsedRow 1 (by decide) (by decide) with h | ⟨s, hs, -⟩
  · exact h
  · exact StoreOp.noConfusion hs

/-- Claim C5: every `Rejected`/`Fatal` outcome of `/submit-review` leaves the
store unchanged (the rollback is observable as the state being exactly the
input state), including the two review-insert schema failures — a missing
`reviews` table and a `reviews` table with no supported column — which are
reported distinctly from code invalidity, as HTTP 500 with their own error
tags rather than the 403 `invalid_code` response. -/
theorem c5_rejected_outcomes_rollback (q : IncomingReview) (t : Nat)
    (db : DBState) :
    ((submit_review q t db).1 ≠ Resp.okTrue → (submit_review q t db).2 = db)
    ∧ (∀ n, validate_review (parse_incoming_review q) = Except.ok n →
        db.reviews_table = none →
        submit_review q t db = (Resp.err 500 "missing_reviews_table", db))
    ∧ (∀ n cols rows,
        validate_review (parse_incoming_review q) = Except.ok n →
        db.reviews_table = some (cols, rows) →
        (redeemUpd (parse_incoming_review q) t db).2 = 1 →
        build_insert_row cols (parse_incoming_review q).name
          (emailOpt (parse_incoming_review q)) n
          (parse_incoming_review q).message t = [] →
        submit_review q t db =
          (Resp.err 500 "reviews_table_has_no_supported_columns", db)) := by
  refine ⟨submit_review_rollback q t db, ?_, ?_⟩
  · intro n hv htab
    exact submit_review_missing_table q t db n hv htab
  · intro n cols rows hv htab hcount hrow
    exact submit_review_no_cols q t db n cols rows hv htab hcount hrow

theorem c5_witness :
    submit_review wq 0 wdbNoTable =
      (Resp.err 500 "missing_reviews_table", wdbNoTable)
    ∧ (submit_review wq 0 wdbNoCols).2 = wdbNoCols
    ∧ submit_review wq 0 wdbNoCols =
        (Resp.err 500 "reviews_table_has_no_supported_columns", wdbNoCols) := by
  refine ⟨(c5_rejected_outcomes_rollback wq 0 wdbNoTable).2.1 5 rfl rfl, ?_, ?_⟩
  · exact (c5_rejected_outcomes_rollback wq 0 wdbNoCols).1 (by decide)
  · exact (c5_rejected_outcomes_rollback wq 0 wdbNoCols).2.2 5 ["id"] [] rfl
      rfl (by decide) (by decide)

/-- Claim C6 (counterexample): a `/submit-review` request whose only intake
defect is a code not matching the three-digit format is answered with
HTTP 403 and the `invalid_code` tag — the same response as an invalid/used
code — not with the HTTP 400 bad-input response the claim asserts.  (The
request is still rejected with the store untouched.) -/
theorem c6_counterexample :
    Resp.statusCode (submit_review wqBadCode 0 wdb).1 = 403
    ∧ (submit_review wqBadCode 0 wdb).1 = Resp.err 403 "invalid_code"
    ∧ (submit_review wqBadCode 0 wdb).2 = wdb := by
  refine ⟨?_, ?_, ?_⟩ <;> decide

/-- Claim C6 (amended): every intake-validation failure of `/submit-review`
is rejected before the Redemption Engine runs, with the store unchanged.
Empty name, empty message, missing rating, non-integer rating and
out-of-range rating are returned as HTTP 400 bad-input responses; a code
failing the three-decimal-digit format, however, is returned as HTTP 403
with error `invalid_code` — the same fixed response as an invalid or used
code, not a 400. -/
theorem c6_amended_validation_short_circuits (q : IncomingReview) (t : Nat)
    (db : DBState) :
    (∀ r, validate_review (parse_incoming_review q) = Except.error r →
       submit_review q t db = (r, db))
    ∧ ((parse_incoming_review q).name = "" ∨
        (parse_incoming_review q).message = "" ∨
        (parse_incoming_review q).rating = none →
       Resp.statusCode (submit_review q t db).1 = 400
       ∧ (submit_review q t db).2 = db)
    ∧ ((parse_incoming_review q).name ≠ "" →
       (parse_incoming_review q).message ≠ "" →
       (parse_incoming_review q).rating ≠ none →
       CODE_RE_fullmatch (parse_incoming_review q).code = false →
       submit_review q t db = (Resp.err 403 "invalid_code", db))
    ∧ ((parse_incoming_review q).name ≠ "" →
       (parse_incoming_review q).message ≠ "" →
       CODE_RE_fullmatch (parse_incoming_review q).code = true →
       ((parse_incoming_review q).rating = some Rating.rbad ∨
        ∃ n, (parse_incoming_review q).rating = some (Rating.rint n) ∧
          (n < 1 ∨ 5 < n)) →
       Resp.statusCode (submit_review q t db).1 = 400
       ∧ (submit_review q t db).2 = db) := by
  refine ⟨fun r hv => submit_review_validate_error q t db r hv, ?_, ?_, ?_⟩
  · intro h
    have hv : validate_review (parse_incoming_review q) =
        Except.error (Resp.err 400 "name, rating, and message are required") := by
      unfold validate_review
      rw [if_pos]
      rcases h with h | h | h <;> simp [h]
    rw [submit_review_validate_error q t db _ hv]
    exact ⟨rfl, rfl⟩
  · intro h1 h2 h3 hcode
    have hv : validate_review (parse_incoming_review q) =
        Except.error (Resp.err 403 "invalid_code") := by
      unfold validate_review
      rw [if_neg (by simp [h1, h2, Option.isNone_iff_eq_none, h3]),
        if_pos (by simp [hcode])]
    exact submit_review_validate_error q t db _ hv
  · intro h1 h2 hcode hr
    rcases hr with hbad | ⟨n, hn, hrange⟩
    · have hv : validate_review (parse_incoming_review q) =
          Except.error (Resp.err 400 "rating must be an integer") := by
        unfold validate_review
        rw [if_neg (by simp [h1, h2, hbad]), if_neg (by simp [hcode]), hbad]
      rw [submit_review_validate_error q t db _ hv]
      exact ⟨rfl, rfl⟩
    · have hv : validate_review (parse_incoming_review q) =
          Except.error (Resp.err 400 "rating must be between 1 and 5") := by
        unfold validate_review
        rw [if_neg (by simp [h1, h2, hn]), if_neg (by simp [hcode])]
        rcases hrange with h | h <;> simp [hn, h]
      rw [submit_review_validate_error q t db _ hv]
      exact ⟨rfl, rfl⟩

theorem c6_witness :
    submit_review wqBadCode 1 wdbEmpty =
      (Resp.err 403 "invalid_code", wdbEmpty)
    ∧ Resp.statusCode (submit_review { wq with rating := some Rating.rbad } 1
        wdbEmpty).1 = 400 := by
  constructor
  · exact (c6_amended_validation_short_circuits wqBadCode 1 wdbEmpty).2.2.1
      (by decide) (by decide) (by decide) (by decide)
  · exact ((c6_amended_validation_short_circuits
      { wq with rating := some Rating.rbad } 1 wdbEmpty).2.2.2
      (by decide) (by decide) (by decide) (Or.inl (by decide))).1

/-- Claim C7: bulk code insertion is all-or-nothing with respect to format
validation — whenever the submitted body parses to a line list containing a
malformed (non-3-digit) line, the handler returns HTTP 400 with an error tag
naming the first offending line and the store is completely unchanged: no
line, including well-formed ones before the bad one, is inserted. -/
theorem c7_bulk_add_all_or_nothing (raw : String) (t : Nat) (db : DBState)
    (hbad : ∃ l ∈ parse_code_lines raw, CODE_RE_fullmatch l = false) :
    ∃ c, c ∈ parse_code_lines raw ∧ CODE_RE_fullmatch c = false ∧
      api_admin_add_codes raw t db =
        (Resp.err 400 ("invalid_code_format:" ++ c), db) := by
  obtain ⟨c, hfirst, hmem, hc⟩ := firstBadCode_spec (parse_code_lines raw) hbad
  have hne : ¬pyStrip raw = "" := by
    intro h0
    rw [parse_code_lines_of_strip_empty raw h0] at hmem
    exact absurd hmem (List.not_mem_nil c)
  refine ⟨c, hmem, hc, ?_⟩
  unfold api_admin_add_codes
  rw [if_neg hne, hfirst]

theorem c7_witness :
    (api_admin_add_codes "123\n456\nabc" 0 wdbEmpty).2 = wdbEmpty
    ∧ Resp.statusCode (api_admin_add_codes "123\n456\nabc" 0 wdbEmpty).1 =
        400 := by
  obtain ⟨c, -, -, heq⟩ := c7_bulk_add_all_or_nothing "123\n456\nabc" 0
    wdbEmpty ⟨"abc", by decide, by decide⟩
  rw [heq]
  exact ⟨rfl, rfl⟩

/-- Claim C8: `get_secret` prefers the runtime-injected credential-store
value and falls back to the environment variable exactly when the credential
is absent or empty (both read as `""`); and when the resolved admin password
is empty, `/api/admin/login` answers HTTP 500 `admin_not_configured` for
every password attempt without touching the session flag — admin login is
disabled entirely. -/
theorem c8_secrets_resolution_fail_closed (s : SecretsEnv)
    (env_name cred_name pw : String) (adm : Bool) :
    (s.credential cred_name ≠ "" →
       get_secret s env_name cred_name = s.credential cred_name)
    ∧ (s.credential cred_name = "" →
       get_secret s env_name cred_name = s.env env_name)
    ∧ (get_secret s "ADMIN_PASSWORD" "admin_password" = "" →
       api_admin_login (get_secret s "ADMIN_PASSWORD" "admin_password") pw
         adm = (Resp.err 500 "admin_not_configured", adm)) := by
  refine ⟨?_, ?_, ?_⟩
  · intro h
    unfold get_secret
    rw [if_pos h]
  · intro h
    unfold get_secret
    rw [if_neg (by simp [h])]
  · intro h
    unfold api_admin_login
    rw [if_pos h]

theorem c8_witness :
    get_secret wSecretsEmpty "FLASK_SECRET_KEY" "flask_secret_key" =
      wSecretsEmpty.env "FLASK_SECRET_KEY"
    ∧ api_admin_login
        (get_secret wSecretsEmpty "ADMIN_PASSWORD" "admin_password")
        "guess" false = (Resp.err 500 "admin_not_configured", false) :=
  ⟨(c8_secrets_resolution_fail_closed wSecretsEmpty "FLASK_SECRET_KEY"
      "flask_secret_key" "guess" false).2.1 rfl,
   (c8_secrets_resolution_fail_closed wSecretsEmpty "ADMIN_PASSWORD"
      "admin_password" "guess" false).2.2 rfl⟩

/-- Claim C9: a state-changing call (method POST/PUT/PATCH/DELETE) through
the `admin_write_required` decorator with a valid admin session but without
`X-Requested-With: smr-admin` is rejected as HTTP 400 `bad_request` — not as
a 401 authentication failure — and this holds for every wrapped handler, so
the handler body is never invoked. -/
theorem c9_admin_write_missing_header_bad_request (method : String)
    (hdr : Option String) (handler : Unit → Resp × DBState) (db : DBState)
    (hm : ["POST", "PUT", "PATCH", "DELETE"].contains method = true)
    (hh : require_ajax_header hdr = false) :
    admin_write_required true method hdr handler db =
      (Resp.err 400 "bad_request", db) := by
  unfold admin_write_required
  rw [if_neg (by simp), if_pos (by rw [hm, hh]; rfl)]

theorem c9_witness :
    admin_write_required true "POST" none (fun _ => (Resp.okTrue, wdb)) wdb =
      (Resp.err 400 "bad_request", wdb) :=
  c9_admin_write_missing_header_bad_request "POST" none
    (fun _ => (Resp.okTrue, wdb)) wdb (by decide) (by decide)

/-- Claim C10: frame property of bulk code addition.  When every submitted
line is well-formed, the handler reports `ok` with `submitted` equal to the
number of submitted lines — regardless of how many rows were actually
inserted — and, because the insert is `INSERT OR IGNORE` on the `code`
primary key, every pre-existing row (redeemed or not) survives completely
unchanged (in particular a used code is never reset), while any genuinely
new row is a fresh unredeemed one for a submitted line. -/
theorem c10_insert_or_ignore_frame (raw : String) (t : Nat) (db : DBState)
    (hne : pyStrip raw ≠ "")
    (hok : firstBadCode (parse_code_lines raw) = none) :
    (api_admin_add_codes raw t db).1 =
      Resp.okSubmitted (parse_code_lines raw).length
    ∧ (∀ c r, (c, r) ∈ db.review_codes →
        (c, r) ∈ (api_admin_add_codes raw t db).2.review_codes)
    ∧ (∀ c r, (c, r) ∈ (api_admin_add_codes raw t db).2.review_codes →
        (c, r) ∈ db.review_codes ∨
          (c ∈ parse_code_lines raw ∧ r = freshCodeRow t))
    ∧ (api_admin_add_codes raw t db).2.reviews_table = db.reviews_table := by
  have heq : api_admin_add_codes raw t db =
      (Resp.okSubmitted (parse_code_lines raw).length,
       { db with review_codes := (parse_code_lines raw).foldl (insert_or_ignore t) db.review_codes }) := by
    unfold api_admin_add_codes
    rw [if_neg hne, hok]
  refine ⟨by rw [heq], ?_, ?_, by rw [heq]⟩
  · intro c r hmem
    rw [heq]
    exact foldl_insert_mem t (c, r) (parse_code_lines raw)
      db.review_codes hmem
  · intro c r hmem
    rw [heq] at hmem
    exact foldl_insert_mem_rev t (c, r) (parse_code_lines raw)
      db.review_codes hmem

theorem c10_witness :
    (api_admin_add_codes "123\n456" 2 wdbUsed).1 = Resp.okSubmitted 2
    ∧ ("123", wUsedRow) ∈
        (api_admin_add_codes "123\n456" 2 wdbUsed).2.review_codes := by
  have h := c10_insert_or_ignore_frame "123\n456" 2 wdbUsed (by decide)
    (by decide)
  refine ⟨?_, h.2.1 "123" wUsedRow (by decide)⟩
  rw [h.1]
  decide
